import Mathlib

/-!
Shallow embedding of `upscale_robust_nas_progress_cached.py`.

Directories are modelled as `Option (List (String × Nat))`: `none` means the
directory does not exist (`os.path.exists` is false), `some entries` is an
existing directory whose entries are (filename, byte size) pairs.  The
secondary (NAS) folder argument is additionally wrapped in `Option` because the
Python code distinguishes `nas_folder is None` (truthiness test `if nas_folder:`)
from a path to a missing directory.
-/

/-- One directory entry: filename and byte size. -/
abbrev Entry := String × Nat

/-- A directory: `none` = does not exist, `some l` = exists with entries `l`. -/
abbrev Dir := Option (List Entry)

/-- `MIN_VALID_FILE_SIZE = 50 * 1024` (line 37). -/
def MIN_VALID_FILE_SIZE : Nat := 50 * 1024

/-- `EMA_ALPHA = 0.3` (line 33). -/
def EMA_ALPHA : ℚ := 3 / 10

/-- `BATCH_SIZE = 500` (line 25). -/
def BATCH_SIZE : Nat := 500

/-- Model of Python `str.lower()` over the character sequence. -/
def strToLower (s : String) : String := ⟨s.data.map Char.toLower⟩

/-- Model of Python `str.endswith(suffix)` over the character sequence. -/
def strEndsWith (s suffix : String) : Bool := suffix.data.isSuffixOf s.data

/-- Model of `os.path.splitext(s)[0]` for plain filenames (no path
separators): split at the last dot, unless every character before that dot is
itself a dot (Python keeps leading dots with the base). -/
def splitextBase (s : String) : String :=
  let cs := s.data
  match cs.reverse.findIdx? (· == '.') with
  | none => s
  | some j =>
    let d := cs.length - 1 - j
    if (cs.take d).any (· != '.') then ⟨cs.take d⟩ else s

/-- The validity test of `get_valid_output_basenames` /
`count_valid_output_files` (lines 197-199, 217-219): extension `.jpg` or
`.png` case-insensitively, and size at least `MIN_VALID_FILE_SIZE`. -/
def isValidEntry (e : Entry) : Bool :=
  (strEndsWith (strToLower e.1) ".jpg" || strEndsWith (strToLower e.1) ".png")
    && decide (MIN_VALID_FILE_SIZE ≤ e.2)

/-- `get_valid_output_basenames(folder)` (lines 209-226): basenames of valid
files, normalized to the canonical `.png` extension; empty set when the folder
is missing. -/
def get_valid_output_basenames (folder : Dir) : Finset String :=
  match folder with
  | none => ∅
  | some entries =>
    ((entries.filter isValidEntry).map (fun e => splitextBase e.1 ++ ".png")).toFinset

/-- `count_valid_output_files(folder)` (lines 189-206): number of valid files
in a directory. -/
def count_valid_output_files (folder : Dir) : Nat :=
  match folder with
  | none => 0
  | some entries => (entries.filter isValidEntry).length

/-- `count_valid_output_files_union(local, nas, cache)` (lines 229-241):
cardinality of the union of the local valid basenames with the NAS cache if
supplied, else the NAS scan; the NAS contributes nothing when the NAS folder
argument is Python `None`. -/
def count_valid_output_files_union (local_folder : Dir) (nas_folder : Option Dir)
    (nas_cache_basenames : Option (Finset String)) : Nat :=
  let s := get_valid_output_basenames local_folder ∪
    (match nas_folder with
     | some nasd => nas_cache_basenames.getD (get_valid_output_basenames nasd)
     | none => ∅)
  s.card

/-- The set of source filenames of `get_missing_frames` (line 257): names in
the source directory ending (case-insensitively) in `.png`. -/
def src_png_files (entries : List Entry) : Finset String :=
  ((entries.map Prod.fst).filter (fun f => strEndsWith (strToLower f) ".png")).toFinset

/-- `get_missing_frames(src, local, nas, cache)` (lines 248-265): source names
minus the union of local valid basenames and the NAS cache-or-scan, sorted
ascending. -/
def get_missing_frames (src_folder local_folder : Dir) (nas_folder : Option Dir)
    (nas_cache_basenames : Option (Finset String)) : List String :=
  match src_folder with
  | none => []
  | some src_entries =>
    let src_files := src_png_files src_entries
    let completed := get_valid_output_basenames local_folder ∪
      (match nas_folder with
       | some nasd => nas_cache_basenames.getD (get_valid_output_basenames nasd)
       | none => ∅)
    (src_files \ completed).sort (· ≤ ·)

/-- State of `ProgressDaemon` rolling counters (lines 112-115). -/
structure DaemonSt where
  avg_speed : Option ℚ
  last_check_time : ℚ
  last_count : Nat
deriving DecidableEq

/-- The values computed by one `ProgressDaemon.check_progress` tick
(lines 163-168): clamped remaining count, percentage, optional ETA, and the
updated smoothed speed. -/
structure Report where
  remaining : ℤ
  percentage : ℚ
  eta : Option ℚ
  avg : ℚ
deriving DecidableEq

/-- The EMA update of line 161:
`avg = EMA_ALPHA * instant + (1 - EMA_ALPHA) * avg_prev`. -/
def emaUpdate (instant_speed avg_prev : ℚ) : ℚ :=
  EMA_ALPHA * instant_speed + (1 - EMA_ALPHA) * avg_prev

/-- The locked section of `ProgressDaemon.check_progress` (lines 148-173),
with real arithmetic embedded as rationals.  Returns the updated rolling state
and `some` report, or the unchanged state and `none` when `time_delta <= 0`. -/
def check_progress (st : DaemonSt) (now : ℚ) (current_count total : Nat) :
    DaemonSt × Option Report :=
  let time_delta := now - st.last_check_time
  let frame_delta : ℚ := (current_count : ℚ) - (st.last_count : ℚ)
  if time_delta ≤ 0 then (st, none)
  else
    let instant_speed := frame_delta / time_delta
    let avg' :=
      match st.avg_speed with
      | none => if 0 < instant_speed then instant_speed else 1 / 10
      | some a => emaUpdate instant_speed a
    let remaining : ℤ :=
      if (total : ℤ) - (current_count : ℤ) < 0 then 0
      else (total : ℤ) - (current_count : ℤ)
    let percentage : ℚ := if 0 < total then ((current_count : ℚ) / (total : ℚ)) * 100 else 0
    let eta : Option ℚ := if 1 / 1000 < avg' then some ((remaining : ℚ) / avg') else none
    (⟨some avg', now, current_count⟩, some ⟨remaining, percentage, eta, avg'⟩)

/-- Iterating the EMA update with a constant instantaneous speed `v`. -/
def emaIter (v : ℚ) : Nat → ℚ → ℚ
  | 0, a => a
  | n + 1, a => emaIter v n (emaUpdate v a)

/-- Recursion core of `batch_slices`; the fuel argument only forces structural
termination and never runs out when it starts at the list length with a
positive chunk size. -/
def batch_slices_go {α : Type} (k : Nat) : Nat → List α → List (List α)
  | _, [] => []
  | 0, _ :: _ => []
  | fuel + 1, x :: xs => ((x :: xs).take k) :: batch_slices_go k fuel ((x :: xs).drop k)

/-- The batch slicing of `run_smart_upscaling` (lines 425-429):
`for i in range(0, total_missing, BATCH_SIZE): batch = missing_files[i:i+BATCH_SIZE]`,
as successive take/drop chunks (the step `k` is positive in the program). -/
def batch_slices {α : Type} (k : Nat) (l : List α) : List (List α) :=
  batch_slices_go k l.length l

/-- First entry with the given name, if any: the observation `os.path.exists`
plus `os.path.getsize` make of a modelled directory listing. -/
def lookupName (n : String) : List Entry → Option Nat
  | [] => none
  | e :: rest => if e.1 = n then some e.2 else lookupName n rest

/-- Deleting a file: `os.remove` on a modelled directory listing. -/
def removeName (n : String) (fs : List Entry) : List Entry :=
  fs.filter (fun e => !(e.1 == n))

/-- The body of the `for ext in ['.png', '.jpg']` loop of
`cleanup_incomplete_files` (lines 281-291): if `basename + ext` exists and its
size is below `MIN_VALID_FILE_SIZE`, remove it. -/
def cleanup_ext_step (fs : List Entry) (target : String) : List Entry :=
  match lookupName target fs with
  | some size => if size < MIN_VALID_FILE_SIZE then removeName target fs else fs
  | none => fs

/-- One iteration of the outer loop of `cleanup_incomplete_files`
(lines 277-291): try both candidate extensions of one batch item. -/
def cleanup_item_step (fs : List Entry) (filename : String) : List Entry :=
  [".png", ".jpg"].foldl (fun fs' ext => cleanup_ext_step fs' (splitextBase filename ++ ext)) fs

/-- `cleanup_incomplete_files(output_folder, batch_files)` (lines 268-294):
returns the output folder after deleting the sub-threshold files belonging to
the batch; a missing folder is returned unchanged. -/
def cleanup_incomplete_files (output_folder : Dir) (batch_files : List String) : Dir :=
  match output_folder with
  | none => none
  | some fs => some (batch_files.foldl cleanup_item_step fs)

/-- The parts of the shared program state that `graceful_shutdown` reads or
writes: the running flag, both output locations, the staging listing and the
current batch (see `MonitorState`, lines 40-97, and `graceful_shutdown`,
lines 330-364). -/
structure SysState where
  running : Bool
  output_folder_local : Dir
  output_folder_nas : Dir
  staging : List String
  current_batch : List String

/-- `graceful_shutdown` (lines 330-364): clear the running flag, empty the
staging area (`cleanup_staging`), and when the current batch is non-empty run
`cleanup_incomplete_files` on the LOCAL output folder only. -/
def graceful_shutdown (st : SysState) : SysState :=
  let st' : SysState := { st with running := false, staging := [] }
  if st'.current_batch.isEmpty then st'
  else { st' with
    output_folder_local := cleanup_incomplete_files st'.output_folder_local st'.current_batch }

/-- The per-run mutable state of the batch loop of `run_smart_upscaling`
(lines 425-497): the running flag and the registered current batch, plus a
ghost trace of the batches handed to the external transform. -/
structure RunState where
  running : Bool
  current_batch : List String
  invoked : List (List String)
deriving DecidableEq

/-- The batch loop of `run_smart_upscaling` (lines 425-497) for one folder
context.  `outcome b = none` models `subprocess.Popen` raising (launch
failure): the code logs, sets the running flag false and breaks.
`outcome b = some c` models the transform exiting with code `c`: a non-zero
code is only logged (line 479), after which the batch registration is cleared
and the loop continues with the next batch. -/
def run_batches (outcome : List String → Option ℤ) :
    List (List String) → RunState → RunState
  | [], st => st
  | b :: rest, st =>
    if st.running then
      let st' : RunState := { st with current_batch := b, invoked := st.invoked ++ [b] }
      match outcome b with
      | none => { st' with running := false }
      | some _ => run_batches outcome rest { st' with current_batch := [] }
    else st

/-- The folder-context loop of `run_smart_upscaling` (lines 384-497): each
context contributes its list of batches; the running flag is polled before
each context (line 385). -/
def run_contexts (outcome : List String → Option ℤ) :
    List (List (List String)) → RunState → RunState
  | [], st => st
  | ctx :: rest, st =>
    if st.running then run_contexts outcome rest (run_batches outcome ctx st) else st

/-- A filename is a deletion candidate of `cleanup_incomplete_files` for the
given batch: it is `basename + ext` for some batch item and one of the two
extensions tried at line 281. -/
def targeted (batch_files : List String) (n : String) : Bool :=
  batch_files.any (fun f =>
    n == splitextBase f ++ ".png" || n == splitextBase f ++ ".jpg")

lemma toFinset_perm_eq {l1 l2 : List String} (h : l1.Perm l2) : l1.toFinset = l2.toFinset := by
  ext a
  simp [List.mem_toFinset, h.mem_iff]

lemma get_valid_output_basenames_perm {l1 l2 : List Entry} (h : l1.Perm l2) :
    get_valid_output_basenames (some l1) = get_valid_output_basenames (some l2) := by
  simp only [get_valid_output_basenames]
  exact toFinset_perm_eq ((h.filter isValidEntry).map _)

lemma src_png_files_perm {l1 l2 : List Entry} (h : l1.Perm l2) :
    src_png_files l1 = src_png_files l2 := by
  simp only [src_png_files]
  exact toFinset_perm_eq ((h.map Prod.fst).filter _)

/-- C4: an output file is valid iff its extension is `.jpg` or `.png`
case-insensitively and its size is at least `MIN_VALID_FILE_SIZE`; valid
basenames are normalized to `.png`; a file of size threshold - 1 is invalid
and one of size exactly the threshold is valid. -/
theorem c4_validity_characterization :
    (∀ (entries : List Entry) (b : String),
      b ∈ get_valid_output_basenames (some entries) ↔
        ∃ e ∈ entries,
          (strEndsWith (strToLower e.1) ".jpg" || strEndsWith (strToLower e.1) ".png") = true ∧
          MIN_VALID_FILE_SIZE ≤ e.2 ∧ b = splitextBase e.1 ++ ".png") ∧
    get_valid_output_basenames (some [("a.png", MIN_VALID_FILE_SIZE - 1)]) = ∅ ∧
    get_valid_output_basenames (some [("a.png", MIN_VALID_FILE_SIZE)]) = {"a.png"} ∧
    get_valid_output_basenames (some [("B.JPG", MIN_VALID_FILE_SIZE)]) = {"B.png"} := by
  refine ⟨?_, by decide, by decide, by decide⟩
  intro entries b
  simp only [get_valid_output_basenames, List.mem_toFinset, List.mem_map, List.mem_filter,
    isValidEntry, Bool.and_eq_true, Bool.or_eq_true, decide_eq_true_eq]
  constructor
  · rintro ⟨e, ⟨he, hext, hsize⟩, hb⟩
    exact ⟨e, he, hext, hsize, hb.symm⟩
  · rintro ⟨e, he, hext, hsize, hb⟩
    exact ⟨e, ⟨he, hext, hsize⟩, hb.symm⟩

/-- C3: the missing list is the sorted list of source `.png` names not in the
union of the local valid basenames with the supplied cache (or the NAS scan
when no cache is given); plus the spec's concrete example. -/
theorem c3_missing_frames_spec :
    (∀ (src_entries : List Entry) (local_folder nasd : Dir) (cache : Option (Finset String)),
      (get_missing_frames (some src_entries) local_folder (some nasd) cache).Sorted (· ≤ ·) ∧
      ∀ f, f ∈ get_missing_frames (some src_entries) local_folder (some nasd) cache ↔
        (f ∈ src_png_files src_entries ∧
         f ∉ get_valid_output_basenames local_folder ∪
             cache.getD (get_valid_output_basenames nasd))) ∧
    get_missing_frames (some [("a.png", 0), ("b.png", 0), ("c.png", 0)])
      (some [("a.png", MIN_VALID_FILE_SIZE)])
      (some (some [("b.png", MIN_VALID_FILE_SIZE)])) none = ["c.png"] := by
  constructor
  · intro src_entries local_folder nasd cache
    constructor
    · exact Finset.sort_sorted _ _
    · intro f
      simp [get_missing_frames, Finset.mem_sort, Finset.mem_sdiff]
  · have h : src_png_files [("a.png", 0), ("b.png", 0), ("c.png", 0)] \
        (get_valid_output_basenames (some [("a.png", MIN_VALID_FILE_SIZE)]) ∪
         get_valid_output_basenames (some [("b.png", MIN_VALID_FILE_SIZE)])) = {"c.png"} := by
      decide
    show (src_png_files [("a.png", 0), ("b.png", 0), ("c.png", 0)] \
        (get_valid_output_basenames (some [("a.png", MIN_VALID_FILE_SIZE)]) ∪
         (none : Option (Finset String)).getD
           (get_valid_output_basenames (some [("b.png", MIN_VALID_FILE_SIZE)])))).sort (· ≤ ·) =
      ["c.png"]
    rw [Option.getD_none, h, Finset.sort_singleton]

/-- C10: when a cache set is supplied, the union count and the missing-frame
resolution are independent of the secondary (NAS) directory contents: two runs
differing only in the NAS directory produce identical results. -/
theorem c10_cache_noninterference (local_folder : Dir) (d1 d2 : Dir)
    (c : Finset String) (src : Dir) :
    count_valid_output_files_union local_folder (some d1) (some c) =
      count_valid_output_files_union local_folder (some d2) (some c) ∧
    get_missing_frames src local_folder (some d1) (some c) =
      get_missing_frames src local_folder (some d2) (some c) := by
  refine ⟨rfl, ?_⟩
  cases src <;> rfl

/-- C9: `get_missing_frames` is a deterministic function of the directory
contents: rescanning the same contents (any permutation of the same directory
listings) yields the identical sorted list. -/
theorem c9_missing_frames_deterministic (s1 s2 l1 l2 n1 n2 : List Entry)
    (cache : Option (Finset String))
    (hs : s1.Perm s2) (hl : l1.Perm l2) (hn : n1.Perm n2) :
    get_missing_frames (some s1) (some l1) (some (some n1)) cache =
      get_missing_frames (some s2) (some l2) (some (some n2)) cache := by
  simp only [get_missing_frames]
  rw [src_png_files_perm hs, get_valid_output_basenames_perm hl,
    get_valid_output_basenames_perm hn]

/-- Witness for C9 at concrete directory listings that are permutations of
each other. -/
theorem c9_missing_frames_deterministic_witness :
    get_missing_frames (some [("a.png", 0), ("b.png", 0)]) (some [("a.png", 51200)])
      (some (some [("q.png", 51200)])) none =
    get_missing_frames (some [("b.png", 0), ("a.png", 0)]) (some [("a.png", 51200)])
      (some (some [("q.png", 51200)])) none :=
  c9_missing_frames_deterministic _ _ _ _ _ _ none (by decide) (by decide) (by decide)

lemma batch_slices_go_flatten {α : Type} (k : Nat) (hk : 0 < k) :
    ∀ (fuel : Nat) (l : List α), l.length ≤ fuel →
      (batch_slices_go k fuel l).flatten = l := by
  intro fuel
  induction fuel with
  | zero =>
    intro l hl
    cases l with
    | nil => rfl
    | cons x xs => simp at hl
  | succ n ih =>
    intro l hl
    cases l with
    | nil => rfl
    | cons x xs =>
      simp only [batch_slices_go, List.flatten_cons]
      rw [ih]
      · exact List.take_append_drop k (x :: xs)
      · simp only [List.length_drop, List.length_cons]
        simp only [List.length_cons] at hl
        omega

lemma batch_slices_go_length_le {α : Type} (k : Nat) :
    ∀ (fuel : Nat) (l : List α), ∀ b ∈ batch_slices_go k fuel l, b.length ≤ k := by
  intro fuel
  induction fuel with
  | zero =>
    intro l b hb
    cases l with
    | nil => simp [batch_slices_go] at hb
    | cons x xs => simp [batch_slices_go] at hb
  | succ n ih =>
    intro l b hb
    cases l with
    | nil => simp [batch_slices_go] at hb
    | cons x xs =>
      simp only [batch_slices_go, List.mem_cons] at hb
      rcases hb with rfl | hb
      · simp [List.length_take]
      · exact ih _ b hb

set_option maxRecDepth 1000000 in
/-- C6: for a positive maximum batch size, the slices concatenate back to the
missing list and each slice has length at most the maximum; slicing 1200 items
with `BATCH_SIZE = 500` gives slice sizes 500, 500, 200 in order. -/
theorem c6_batch_partition :
    (∀ (k : Nat) (l : List String), 0 < k →
      (batch_slices k l).flatten = l ∧ ∀ b ∈ batch_slices k l, b.length ≤ k) ∧
    (batch_slices BATCH_SIZE (List.range 1200)).map List.length = [500, 500, 200] := by
  constructor
  · intro k l hk
    exact ⟨batch_slices_go_flatten k hk l.length l le_rfl,
      fun b hb => batch_slices_go_length_le k l.length l b hb⟩
  · decide

/-- Witness for C6 at a concrete slicing. -/
theorem c6_batch_partition_witness :
    (batch_slices 2 ["a", "b", "c"]).flatten = ["a", "b", "c"] ∧
    ∀ b ∈ batch_slices 2 ["a", "b", "c"], b.length ≤ 2 :=
  c6_batch_partition.1 2 ["a", "b", "c"] (by decide)

lemma emaUpdate_dist (v b : ℚ) : |emaUpdate v b - v| = (1 - EMA_ALPHA) * |b - v| := by
  have h : emaUpdate v b - v = (1 - EMA_ALPHA) * (b - v) := by
    simp only [emaUpdate, EMA_ALPHA]
    ring
  rw [h, abs_mul, abs_of_nonneg (by norm_num [EMA_ALPHA] : (0 : ℚ) ≤ 1 - EMA_ALPHA)]

lemma emaIter_dist (v a : ℚ) : ∀ n, |emaIter v n a - v| = (1 - EMA_ALPHA) ^ n * |a - v| := by
  intro n
  induction n generalizing a with
  | zero => simp [emaIter]
  | succ m ih =>
    show |emaIter v m (emaUpdate v a) - v| = (1 - EMA_ALPHA) ^ (m + 1) * |a - v|
    rw [ih (emaUpdate v a), emaUpdate_dist, pow_succ]
    ring

/-- C8: one EMA update with constant instantaneous speed `v` shrinks the
distance to `v` by the factor `1 - EMA_ALPHA`, after `n` ticks the distance is
`(1 - EMA_ALPHA)^n` times the initial one, and hence the smoothed average
converges to `v`. -/
theorem c8_ema_convergence (v a ε : ℚ) (hε : 0 < ε) :
    (∀ b, |emaUpdate v b - v| = (1 - EMA_ALPHA) * |b - v|) ∧
    (∀ n, |emaIter v n a - v| = (1 - EMA_ALPHA) ^ n * |a - v|) ∧
    ∃ N, ∀ n, N ≤ n → |emaIter v n a - v| < ε := by
  refine ⟨emaUpdate_dist v, emaIter_dist v a, ?_⟩
  have hδ : (0 : ℚ) < ε / (|a - v| + 1) := by positivity
  obtain ⟨N, hN⟩ := exists_pow_lt_of_lt_one hδ (by norm_num [EMA_ALPHA] : (1 : ℚ) - EMA_ALPHA < 1)
  refine ⟨N, fun n hn => ?_⟩
  rw [emaIter_dist]
  have h1 : (1 - EMA_ALPHA : ℚ) ^ n ≤ (1 - EMA_ALPHA) ^ N :=
    pow_le_pow_of_le_one (by norm_num [EMA_ALPHA]) (by norm_num [EMA_ALPHA]) hn
  have h2 : (0 : ℚ) < |a - v| + 1 := by positivity
  calc (1 - EMA_ALPHA : ℚ) ^ n * |a - v|
      ≤ (1 - EMA_ALPHA) ^ N * (|a - v| + 1) := by
        exact mul_le_mul h1 (by linarith) (abs_nonneg _)
          (pow_nonneg (by norm_num [EMA_ALPHA]) N)
    _ < (ε / (|a - v| + 1)) * (|a - v| + 1) := by
        exact mul_lt_mul_of_pos_right hN h2
    _ = ε := div_mul_cancel₀ ε (ne_of_gt h2)

/-- Witness for C8 at `v = 2`, `a = 0`, `ε = 1`. -/
theorem c8_ema_convergence_witness :
    (∀ b, |emaUpdate 2 b - 2| = (1 - EMA_ALPHA) * |b - 2|) ∧
    (∀ n, |emaIter 2 n 0 - 2| = (1 - EMA_ALPHA) ^ n * |(0 : ℚ) - 2|) ∧
    ∃ N, ∀ n, N ≤ n → |emaIter 2 n 0 - 2| < 1 :=
  c8_ema_convergence 2 0 1 (by norm_num)

/-- C5 counterexample: on a first tick with negative instantaneous throughput
(the valid-file count dropped from 2 to 1 in one second), the code seeds the
EMA with the floor `0.1` even though the instantaneous throughput `-1` is not
zero, so the floor is not substituted "exactly when the instantaneous
throughput is zero". -/
theorem c5_floor_counterexample :
    (check_progress ⟨none, 0, 2⟩ 1 1 10).1.avg_speed = some (1 / 10) ∧
    ((1 : ℚ) - 2) / ((1 : ℚ) - 0) ≠ 0 ∧
    some (((1 : ℚ) - 2) / ((1 : ℚ) - 0)) ≠ some (1 / 10 : ℚ) := by
  refine ⟨?_, by norm_num, by norm_num⟩
  norm_num [check_progress]

/-- C5 (amended): on a first tick the EMA is seeded with the instantaneous
throughput, with the floor `0.1` substituted exactly when that throughput is
zero or negative; on every later tick the average becomes
`EMA_ALPHA * instant + (1 - EMA_ALPHA) * avg_prev`. -/
theorem c5_ema_seed_amended (st : DaemonSt) (now : ℚ) (current_count total : Nat)
    (h : 0 < now - st.last_check_time) :
    (st.avg_speed = none →
      (check_progress st now current_count total).1.avg_speed =
        some (if 0 < ((current_count : ℚ) - (st.last_count : ℚ)) / (now - st.last_check_time)
          then ((current_count : ℚ) - (st.last_count : ℚ)) / (now - st.last_check_time)
          else 1 / 10)) ∧
    (∀ a, st.avg_speed = some a →
      (check_progress st now current_count total).1.avg_speed =
        some (emaUpdate
          (((current_count : ℚ) - (st.last_count : ℚ)) / (now - st.last_check_time)) a)) := by
  obtain ⟨av, t0, c0⟩ := st
  simp only at h
  constructor
  · intro hnone
    simp only at hnone
    subst hnone
    simp [check_progress, not_le.mpr h]
  · intro a ha
    simp only at ha
    subst ha
    simp [check_progress, not_le.mpr h]

/-- Witness for the amended C5 at concrete first and subsequent ticks. -/
theorem c5_ema_seed_witness :
    ((check_progress ⟨none, 0, 0⟩ 1 5 10).1.avg_speed =
      some (if 0 < ((5 : ℚ) - ((0 : Nat) : ℚ)) / ((1 : ℚ) - 0)
        then ((5 : ℚ) - ((0 : Nat) : ℚ)) / ((1 : ℚ) - 0) else 1 / 10)) ∧
    ((check_progress ⟨some 2, 0, 38⟩ 1 40 100).1.avg_speed =
      some (emaUpdate (((40 : ℚ) - ((38 : Nat) : ℚ)) / ((1 : ℚ) - 0)) 2)) :=
  ⟨(c5_ema_seed_amended ⟨none, 0, 0⟩ 1 5 10 (by norm_num)).1 rfl,
   (c5_ema_seed_amended ⟨some 2, 0, 38⟩ 1 40 100 (by norm_num)).2 2 rfl⟩

/-- C7: on a tick with positive elapsed time a report is produced whose
remaining count is `max 0 (total - count)`, whose percentage is
`count / total * 100` (0 when `total = 0`), and whose ETA is
`remaining / avg` exactly when the updated average exceeds `1/1000`, else
undetermined; concretely `total = 100`, `count = 40`, `avg = 2` gives an ETA
of 30 seconds. -/
theorem c7_progress_report (st : DaemonSt) (now : ℚ) (current_count total : Nat)
    (h : 0 < now - st.last_check_time) :
    (∃ rep : Report, (check_progress st now current_count total).2 = some rep ∧
      rep.remaining = max 0 ((total : ℤ) - (current_count : ℤ)) ∧
      rep.percentage =
        (if 0 < total then ((current_count : ℚ) / (total : ℚ)) * 100 else 0) ∧
      rep.eta = (if 1 / 1000 < rep.avg then some ((rep.remaining : ℚ) / rep.avg) else none)) ∧
    (check_progress ⟨some 2, 0, 38⟩ 1 40 100).2 = some ⟨60, 40, some 30, 2⟩ := by
  constructor
  · obtain ⟨av, t0, c0⟩ := st
    simp only at h
    simp only [check_progress, not_le.mpr h, if_false]
    refine ⟨_, rfl, ?_, rfl, rfl⟩
    dsimp only
    split <;> omega
  · norm_num [check_progress, emaUpdate, EMA_ALPHA]

/-- Witness for C7 at a concrete tick. -/
theorem c7_progress_report_witness :
    (∃ rep : Report, (check_progress ⟨some 2, 0, 38⟩ 1 40 100).2 = some rep ∧
      rep.remaining = max 0 ((100 : ℤ) - ((40 : Nat) : ℤ)) ∧
      rep.percentage =
        (if 0 < (100 : Nat) then (((40 : Nat) : ℚ) / ((100 : Nat) : ℚ)) * 100 else 0) ∧
      rep.eta = (if 1 / 1000 < rep.avg then some ((rep.remaining : ℚ) / rep.avg) else none)) ∧
    (check_progress ⟨some 2, 0, 38⟩ 1 40 100).2 = some ⟨60, 40, some 30, 2⟩ :=
  c7_progress_report ⟨some 2, 0, 38⟩ 1 40 100 (by norm_num)

lemma run_batches_halted (outcome : List String → Option ℤ) (bs : List (List String))
    (st : RunState) (h : st.running = false) : run_batches outcome bs st = st := by
  cases bs with
  | nil => rfl
  | cons b rest => simp [run_batches, h]

lemma run_contexts_halted (outcome : List String → Option ℤ)
    (ctxs : List (List (List String))) (st : RunState) (h : st.running = false) :
    run_contexts outcome ctxs st = st := by
  cases ctxs with
  | nil => rfl
  | cons ctx rest => simp [run_contexts, h]

lemma run_batches_all_ok (outcome : List String → Option ℤ) (bs : List (List String)) :
    ∀ st : RunState, st.running = true → (∀ b ∈ bs, (outcome b).isSome = true) →
      (run_batches outcome bs st).running = true ∧
      (run_batches outcome bs st).invoked = st.invoked ++ bs := by
  induction bs with
  | nil =>
    intro st h _
    simp [run_batches, h]
  | cons b rest ih =>
    intro st h hok
    obtain ⟨c, hc⟩ := Option.isSome_iff_exists.mp (hok b (by simp))
    simp only [run_batches, h, if_true, hc]
    have h2 := ih ⟨true, [], st.invoked ++ [b]⟩ rfl (fun y hy => hok y (by simp [hy]))
    refine ⟨h2.1, ?_⟩
    rw [h2.2]
    simp

lemma run_batches_launch_fail (outcome : List String → Option ℤ) (pre : List (List String))
    (b : List String) (post : List (List String)) :
    ∀ st : RunState, st.running = true → (∀ x ∈ pre, (outcome x).isSome = true) →
      outcome b = none →
      (run_batches outcome (pre ++ b :: post) st).running = false ∧
      (run_batches outcome (pre ++ b :: post) st).invoked = st.invoked ++ pre ++ [b] := by
  induction pre with
  | nil =>
    intro st h _ hb
    simp [run_batches, h, hb]
  | cons x pre' ih =>
    intro st h hpre hb
    obtain ⟨c, hc⟩ := Option.isSome_iff_exists.mp (hpre x (by simp))
    simp only [List.cons_append, run_batches, h, if_true, hc, List.append_eq]
    have h2 := ih ⟨true, [], st.invoked ++ [x]⟩ rfl (fun y hy => hpre y (by simp [hy])) hb
    refine ⟨h2.1, ?_⟩
    rw [h2.2]
    simp

/-- C1 counterexample: with an external transform that always exits with the
non-zero code 1, the run still invokes every batch and the running flag stays
true: a non-zero exit code is only logged and is not fatal, contradicting the
claim that it halts the run. -/
theorem c1_nonzero_exit_continues_counterexample :
    (run_contexts (fun _ => some 1) [[["a.png"], ["b.png"]]] ⟨true, [], []⟩).invoked =
      [["a.png"], ["b.png"]] ∧
    (run_contexts (fun _ => some 1) [[["a.png"], ["b.png"]]] ⟨true, [], []⟩).running = true := by
  constructor <;> rfl

/-- C1 (amended): only a launch failure (an exception from starting the
external transform) is run-fatal: the running flag is set to false, the
failing batch is the last one invoked, and no later batch or folder context is
processed; after a batch whose transform merely exits with a non-zero code the
run keeps going, with every batch invoked and the running flag still true. -/
theorem c1_launch_failure_fatal :
    (∀ (outcome : List String → Option ℤ) (pre : List (List String)) (b : List String)
       (post : List (List String)) (ctxs : List (List (List String))) (st : RunState),
      st.running = true → (∀ x ∈ pre, (outcome x).isSome = true) → outcome b = none →
        (run_contexts outcome ((pre ++ b :: post) :: ctxs) st).running = false ∧
        (run_contexts outcome ((pre ++ b :: post) :: ctxs) st).invoked =
          st.invoked ++ pre ++ [b]) ∧
    (∀ (outcome : List String → Option ℤ) (bs : List (List String)) (st : RunState),
      st.running = true → (∀ x ∈ bs, (outcome x).isSome = true) →
        (run_batches outcome bs st).running = true ∧
        (run_batches outcome bs st).invoked = st.invoked ++ bs) := by
  constructor
  · intro outcome pre b post ctxs st h hpre hb
    have hfail := run_batches_launch_fail outcome pre b post st h hpre hb
    have hctx : run_contexts outcome ((pre ++ b :: post) :: ctxs) st =
        run_contexts outcome ctxs (run_batches outcome (pre ++ b :: post) st) := by
      simp [run_contexts, h]
    rw [hctx, run_contexts_halted _ _ _ hfail.1]
    exact hfail
  · exact run_batches_all_ok

/-- Witness for the amended C1: a launch failure on the only batch halts the
run, and a batch with exit code 0 leaves the run alive. -/
theorem c1_launch_failure_fatal_witness :
    ((run_contexts (fun _ => none) [[["a.png"]]] ⟨true, [], []⟩).running = false ∧
     (run_contexts (fun _ => none) [[["a.png"]]] ⟨true, [], []⟩).invoked =
       ([] : List (List String)) ++ [] ++ [["a.png"]]) ∧
    ((run_batches (fun _ => some 0) [["b.png"]] ⟨true, [], []⟩).running = true ∧
     (run_batches (fun _ => some 0) [["b.png"]] ⟨true, [], []⟩).invoked =
       ([] : List (List String)) ++ [["b.png"]]) :=
  ⟨c1_launch_failure_fatal.1 (fun _ => none) [] ["a.png"] [] [] ⟨true, [], []⟩ rfl
      (by simp) rfl,
   c1_launch_failure_fatal.2 (fun _ => some 0) [["b.png"]] ⟨true, [], []⟩ rfl (by simp)⟩

lemma lookupName_removeName (n t : String) (fs : List Entry) :
    lookupName n (removeName t fs) = if n = t then none else lookupName n fs := by
  induction fs with
  | nil => simp [removeName, lookupName]
  | cons e rest ih =>
    by_cases het : e.1 = t
    · have hrm : removeName t (e :: rest) = removeName t rest := by
        simp [removeName, List.filter_cons, het]
      rw [hrm, ih]
      by_cases hnt : n = t
      · simp [hnt]
      · have hen : ¬ e.1 = n := fun hh => hnt (hh.symm.trans het)
        simp [hnt, lookupName, hen]
    · have hrm : removeName t (e :: rest) = e :: removeName t rest := by
        simp [removeName, List.filter_cons, het]
      rw [hrm]
      simp only [lookupName]
      by_cases hen : e.1 = n
      · have hnt : ¬ n = t := fun hh => het (hen.trans hh)
        simp [hen, hnt]
      · simp only [if_neg hen, ih]

lemma lookupName_cleanup_ext_step (n t : String) (fs : List Entry) :
    lookupName n (cleanup_ext_step fs t) =
      match lookupName n fs with
      | none => none
      | some s => if n = t ∧ s < MIN_VALID_FILE_SIZE then none else some s := by
  unfold cleanup_ext_step
  cases hlt : lookupName t fs with
  | none =>
    cases hln : lookupName n fs with
    | none => simp
    | some s =>
      by_cases hnt : n = t
      · rw [hnt] at hln
        rw [hln] at hlt
        cases hlt
      · simp [hnt]
  | some sz =>
    by_cases hsz : sz < MIN_VALID_FILE_SIZE
    · simp only [if_pos hsz]
      rw [lookupName_removeName]
      cases hln : lookupName n fs with
      | none => simp
      | some s =>
        by_cases hnt : n = t
        · rw [hnt] at hln
          rw [hln] at hlt
          injection hlt with hh
          subst hh
          simp [hnt, hsz]
        · simp [hnt]
    · simp only [if_neg hsz]
      cases hln : lookupName n fs with
      | none => simp
      | some s =>
        by_cases hnt : n = t
        · rw [hnt] at hln
          rw [hln] at hlt
          injection hlt with hh
          subst hh
          simp [hln, hnt, hsz]
        · simp [hln, hnt]

lemma append_png_ne_append_jpg (s : String) : s ++ ".png" ≠ s ++ ".jpg" := by
  intro h
  have h2 := congrArg String.data h
  rw [String.data_append, String.data_append] at h2
  have h3 := List.append_cancel_left h2
  exact absurd (String.ext h3) (by decide)

lemma lookupName_cleanup_item_step (n f : String) (fs : List Entry) :
    lookupName n (cleanup_item_step fs f) =
      match lookupName n fs with
      | none => none
      | some s =>
        if (n = splitextBase f ++ ".png" ∨ n = splitextBase f ++ ".jpg") ∧
            s < MIN_VALID_FILE_SIZE
          then none else some s := by
  have hstep : cleanup_item_step fs f =
      cleanup_ext_step (cleanup_ext_step fs (splitextBase f ++ ".png"))
        (splitextBase f ++ ".jpg") := rfl
  rw [hstep, lookupName_cleanup_ext_step, lookupName_cleanup_ext_step]
  cases hln : lookupName n fs with
  | none => simp
  | some s =>
    by_cases h1 : n = splitextBase f ++ ".png"
    · have h2 : ¬ n = splitextBase f ++ ".jpg" := by
        rw [h1]
        exact append_png_ne_append_jpg (splitextBase f)
      by_cases hs : s < MIN_VALID_FILE_SIZE
      · simp [h1, h2, hs]
      · simp [h1, h2, hs]
    · by_cases h2 : n = splitextBase f ++ ".jpg"
      · have h3 : ¬ splitextBase f ++ ".jpg" = splitextBase f ++ ".png" :=
          fun hh => append_png_ne_append_jpg (splitextBase f) hh.symm
        by_cases hs : s < MIN_VALID_FILE_SIZE
        · simp [h1, h2, h3, hs]
        · simp [h1, h2, h3, hs]
      · simp [h1, h2]

lemma lookupName_cleanup_fold (batch_files : List String) (n : String) :
    ∀ fs : List Entry,
      lookupName n (batch_files.foldl cleanup_item_step fs) =
        match lookupName n fs with
        | none => none
        | some s => if targeted batch_files n = true ∧ s < MIN_VALID_FILE_SIZE
            then none else some s := by
  induction batch_files with
  | nil =>
    intro fs
    cases hln : lookupName n fs <;> simp [targeted, hln]
  | cons f rest ih =>
    intro fs
    have hfold : (f :: rest).foldl cleanup_item_step fs =
        rest.foldl cleanup_item_step (cleanup_item_step fs f) := rfl
    rw [hfold, ih, lookupName_cleanup_item_step]
    cases hln : lookupName n fs with
    | none => simp
    | some s =>
      by_cases hf : n = splitextBase f ++ ".png" ∨ n = splitextBase f ++ ".jpg"
      · have ht : targeted (f :: rest) n = true := by
          simp only [targeted, List.any_cons, Bool.or_eq_true, beq_iff_eq]
          tauto
        by_cases hs : s < MIN_VALID_FILE_SIZE
        · simp [hf, hs, ht]
        · simp [hs]
      · have h1 : ¬ n = splitextBase f ++ ".png" := fun hh => hf (Or.inl hh)
        have h2 : ¬ n = splitextBase f ++ ".jpg" := fun hh => hf (Or.inr hh)
        have ht : targeted (f :: rest) n = targeted rest n := by
          simp [targeted, List.any_cons, h1, h2]
        simp [hf, ht]

/-- C2: with a non-empty current batch, shutdown clears the running flag,
empties the staging area, leaves the secondary (NAS) location untouched, and
in the primary (local) output location deletes exactly those files that
correspond to a batch item under one of the two tried extensions and have size
below `MIN_VALID_FILE_SIZE`; every other file, and every file of size at least
the threshold, survives with its size unchanged. -/
theorem c2_shutdown_cleanup (st : SysState) (fs : List Entry)
    (hloc : st.output_folder_local = some fs) (hbatch : st.current_batch ≠ []) :
    (graceful_shutdown st).running = false ∧
    (graceful_shutdown st).output_folder_nas = st.output_folder_nas ∧
    (graceful_shutdown st).staging = [] ∧
    ∃ fs2, (graceful_shutdown st).output_folder_local = some fs2 ∧
      ∀ n, lookupName n fs2 =
        match lookupName n fs with
        | none => none
        | some s => if targeted st.current_batch n = true ∧ s < MIN_VALID_FILE_SIZE
            then none else some s := by
  obtain ⟨r, lf, nf, stg, cb⟩ := st
  simp only at hloc hbatch
  subst hloc
  have hne : cb.isEmpty = false := by
    cases cb with
    | nil => exact absurd rfl hbatch
    | cons x xs => rfl
  refine ⟨by simp [graceful_shutdown, hne], by simp [graceful_shutdown, hne],
    by simp [graceful_shutdown, hne], cb.foldl cleanup_item_step fs,
    by simp [graceful_shutdown, hne, cleanup_incomplete_files],
    fun n => lookupName_cleanup_fold cb n fs⟩

/-- The shutdown scenario of the spec: a batch of two items, one complete and
one truncated file in the primary location, a complete file in the secondary
location, one staged entry. -/
def shutdown_example_state : SysState :=
  ⟨true, some [("f1.png", 51200), ("f2.png", 100)], some [("f3.png", 51200)],
    ["s1.png"], ["f1.png", "f2.png"]⟩

/-- Witness for C2 at the spec's crash-safety scenario. -/
theorem c2_shutdown_cleanup_witness :
    (graceful_shutdown shutdown_example_state).running = false ∧
    (graceful_shutdown shutdown_example_state).output_folder_nas =
      shutdown_example_state.output_folder_nas ∧
    (graceful_shutdown shutdown_example_state).staging = [] ∧
    ∃ fs2, (graceful_shutdown shutdown_example_state).output_folder_local = some fs2 ∧
      ∀ n, lookupName n fs2 =
        match lookupName n [("f1.png", 51200), ("f2.png", 100)] with
        | none => none
        | some s =>
          if targeted shutdown_example_state.current_batch n = true ∧
              s < MIN_VALID_FILE_SIZE
            then none else some s :=
  c2_shutdown_cleanup shutdown_example_state [("f1.png", 51200), ("f2.png", 100)] rfl
    (by decide)
